import Mathlib

/-!
Verification development for the ssh-mcp server (src/index.ts).

The TypeScript source is shallowly embedded below: each class method or
function that the specification talks about becomes a pure Lean function,
with the mutable instance state (`RateLimiter.requests`,
`SSHConnectionPool.pool`) passed and returned explicitly, timestamps
(`Date.now()`) passed as `Int` arguments, and thrown `McpError`s modelled
as `Except` / `Option` error values.  External collaborators (the `ssh2`
client, the node `fs`/`path`/`os` modules, the remote `realpath` call) are
modelled as oracle parameters, since they are outside the repository.
-/

namespace SshMcp

/-! ## Rate limiter (class RateLimiter, src/index.ts lines 47-68)

Configuration constants `RATE_LIMIT_ENABLED`, `RATE_LIMIT_MAX`,
`RATE_LIMIT_WINDOW` are gathered in a configuration structure. -/

structure RateLimitConfig where
  enabled : Bool
  max : Nat
  windowMs : Int
deriving DecidableEq

/-- The payload of the `McpError` thrown on rate-limit denial:
`Rate limit exceeded: ${RATE_LIMIT_MAX} requests per ${RATE_LIMIT_WINDOW}ms`. -/
structure RateLimitError where
  max : Nat
  windowMs : Int
deriving DecidableEq

/-- The filter on line 57: `this.requests.filter(time => time > windowStart)`
with `windowStart = now - RATE_LIMIT_WINDOW`. -/
def pruneWindow (windowMs now : Int) (requests : List Int) : List Int :=
  requests.filter (fun time => decide (now - windowMs < time))

/-- `RateLimiter.checkLimit` (lines 50-67).  The instance field
`this.requests` is the `requests` argument; the result is the optionally
thrown error together with the value of `this.requests` after the call
(the prune on line 57 is assigned before the throw on line 60, so a denied
call still leaves the pruned list behind). -/
def checkLimitRun (cfg : RateLimitConfig) (requests : List Int) (now : Int) :
    Option RateLimitError × List Int :=
  if cfg.enabled = false then (none, requests)
  else
    let pruned := pruneWindow cfg.windowMs now requests
    if cfg.max ≤ pruned.length then (some ⟨cfg.max, cfg.windowMs⟩, pruned)
    else (none, pruned ++ [now])

/-- `n` successive `checkLimit` calls at the same timestamp `now`
("in rapid succession"), threading `this.requests`; `none` if any call
throws. -/
def checkLimitIter (cfg : RateLimitConfig) (st : List Int) (now : Int) :
    Nat → Option (List Int)
  | 0 => some st
  | n + 1 =>
    match checkLimitRun cfg st now with
    | (none, st') => checkLimitIter cfg st' now n
    | (some _, _) => none

/-! ## Connection pool (class SSHConnectionPool, src/index.ts lines 82-145)

`conn : SSHClient` objects are identified by `Nat` ids; `conn.end()` calls
are recorded in order in the `closed` list. -/

structure PoolConfig where
  enabled : Bool      -- POOL_ENABLED
  maxSize : Nat       -- POOL_MAX_SIZE
  ttlMs : Int         -- POOL_TTL
deriving DecidableEq

structure PooledConnection where
  conn : Nat
  lastUsed : Int
deriving DecidableEq

structure PoolState where
  pool : List PooledConnection
  closed : List Nat
deriving DecidableEq

/-- `SSHConnectionPool.returnConnection` (lines 104-119). -/
def returnConnection (cfg : PoolConfig) (st : PoolState) (conn : Nat) (now : Int) :
    PoolState :=
  if cfg.enabled = false then ⟨st.pool, st.closed ++ [conn]⟩
  else if cfg.maxSize ≤ st.pool.length then ⟨st.pool, st.closed ++ [conn]⟩
  else ⟨st.pool ++ [⟨conn, now⟩], st.closed⟩

/-- `returnConnection` folded over a list of connections (releasing several
sessions in sequence at the same timestamp). -/
def releaseMany (cfg : PoolConfig) (st : PoolState) (now : Int) :
    List Nat → PoolState
  | [] => st
  | c :: cs => releaseMany cfg (returnConnection cfg st c now) now cs

/-- `SSHConnectionPool.cleanupExpired` (lines 121-130): drop (and `end()`)
every entry with `now - pooled.lastUsed > POOL_TTL`. -/
def cleanupExpired (cfg : PoolConfig) (st : PoolState) (now : Int) : PoolState :=
  ⟨st.pool.filter (fun pooled => decide (now - pooled.lastUsed ≤ cfg.ttlMs)),
   st.closed ++
     (st.pool.filter (fun pooled => decide (cfg.ttlMs < now - pooled.lastUsed))).map
       PooledConnection.conn⟩

structure AcquireOutcome where
  conn : Nat
  createdNew : Bool
  state : PoolState
deriving DecidableEq

/-- `SSHConnectionPool.getConnection` (lines 85-102).  `freshId` is the id
of the connection `createNewConnection` would produce.  `this.pool.pop()`
removes and returns the *last* array element, modelled by matching on the
reversed list.  (The source also refreshes `pooled.lastUsed` on the popped
entry; the entry has left the pool at that point, so this has no
observable effect.) -/
def getConnection (cfg : PoolConfig) (st : PoolState) (now : Int) (freshId : Nat) :
    AcquireOutcome :=
  if cfg.enabled = false then ⟨freshId, true, st⟩
  else
    let st1 := cleanupExpired cfg st now
    match st1.pool.reverse with
    | [] => ⟨freshId, true, st1⟩
    | pooled :: rest => ⟨pooled.conn, false, ⟨rest.reverse, st1.closed⟩⟩

/-! ## String helpers

JavaScript string primitives used by the source, modelled over `List Char`
(so that everything reduces inside the kernel).  JS `\s` and the
whitespace class trimmed by `String.prototype.trim` are modelled by
`Char.isWhitespace`. -/

def listStartsWith : List Char → List Char → Bool
  | [], _ => true
  | _ :: _, [] => false
  | p :: ps, c :: cs => decide (p = c) && listStartsWith ps cs

/-- Substring containment: JS `pattern.test(s)` for a literal pattern. -/
def listHasSub (pat : List Char) : List Char → Bool
  | [] =>
    match pat with
    | [] => true
    | _ :: _ => false
  | c :: cs => listStartsWith pat (c :: cs) || listHasSub pat cs

/-- After a `first` character: zero or more whitespace characters, then
`target` — the `\s*&` / `\s*>` tail of the two redirect patterns. -/
def skipWsThen (target : Char) : List Char → Bool
  | [] => false
  | c :: cs =>
    if c = target then true
    else if c.isWhitespace then skipWsThen target cs
    else false

/-- JS regex `a\s*b` applied anywhere in the string. -/
def hasCharWsChar (a b : Char) : List Char → Bool
  | [] => false
  | c :: cs => (decide (c = a) && skipWsThen b cs) || hasCharWsChar a b cs

/-- `s.startsWith(p)` (JS `String.prototype.startsWith`). -/
def strStartsWith (s pat : String) : Bool :=
  listStartsWith pat.toList s.toList

/-- `s.trim()` (JS `String.prototype.trim`): strip leading and trailing
whitespace. -/
def jsTrim (s : String) : String :=
  ⟨((s.toList.dropWhile Char.isWhitespace).reverse.dropWhile Char.isWhitespace).reverse⟩

/-- `s.slice(n)` (JS `String.prototype.slice` with one argument). -/
def jsDrop (s : String) (n : Nat) : String :=
  ⟨s.toList.drop n⟩

/-! ## Command sanitization (sanitizeCommand, src/index.ts lines 245-276) -/

structure SanitizeConfig where
  strictMode : Bool        -- STRICT_MODE
  maxChars : Option Nat    -- MAX_CHARS; none models Infinity (limit disabled)
deriving DecidableEq

inductive CmdError
  | empty         -- 'Command cannot be empty'
  | tooLong       -- 'Command is too long (max ... characters)'
  | dangerous     -- 'Command contains potentially dangerous pattern ...'
deriving DecidableEq

/-- `DANGEROUS_PATTERNS` (lines 216-225): does any of the eight regexes
match the command? -/
def hasDangerousPat (s : String) : Bool :=
  let cs := s.toList
  listHasSub ";".toList cs || listHasSub "&&".toList cs ||
  listHasSub "||".toList cs || listHasSub "|".toList cs ||
  listHasSub "`".toList cs || listHasSub "$(".toList cs ||
  hasCharWsChar '>' '&' cs || hasCharWsChar '&' '>' cs

/-- `sanitizeCommand` (lines 245-276).  The `typeof command !== 'string'`
check is enforced by the Lean type. -/
def sanitizeCommand (cfg : SanitizeConfig) (command : String) :
    Except CmdError String :=
  let trimmedCommand := jsTrim command
  if trimmedCommand = "" then .error .empty
  else if (match cfg.maxChars with
           | some m => decide (m < trimmedCommand.length)
           | none => false) then .error .tooLong
  else if cfg.strictMode && hasDangerousPat trimmedCommand then .error .dangerous
  else .ok trimmedCommand

/-! ## Remote path expansion (expandRemotePath, src/index.ts lines 299-322)

`sftp.realpath` is the remote server's resolver, an external collaborator,
passed as an oracle `realpath : String → Except String String` (error
payload = `err.message`). -/

def expandRemotePath (realpath : String → Except String String)
    (remotePath : String) : String :=
  if strStartsWith remotePath "~" = false then remotePath
  else
    -- const pathToResolve = remotePath === '~' ? '~' : remotePath
    let pathToResolve := if remotePath = "~" then "~" else remotePath
    match realpath pathToResolve with
    | .error _ => remotePath      -- fallback: resolve with the original path
    | .ok resolvedPath => resolvedPath

/-! ## Local path validation (src/index.ts lines 348-482)

The node `fs` / `path` / `os` modules are external collaborators, modelled
as a record of total oracles.  Exceptions thrown by them (the outer
try/catch) are not modelled. -/

structure FsEnv where
  homedir : String                 -- os.homedir()
  join : String → String → String  -- path.join
  resolve : String → String        -- path.resolve
  dirname : String → String        -- path.dirname
  existsSync : String → Bool       -- fs.existsSync
  isFile : String → Bool           -- fs.statSync(p).isFile()
  readableSync : String → Bool     -- fs.accessSync(p, R_OK) succeeds
  writableSync : String → Bool     -- fs.accessSync(p, W_OK) succeeds

structure PathValidation where
  valid : Bool
  normalizedPath : String
  error : Option String
  suggestion : Option String
deriving DecidableEq

/-- Tilde expansion shared by both validators (lines 356-361 / 428-433). -/
def expandLocalTilde (env : FsEnv) (localPath : String) : String :=
  if strStartsWith localPath "~/" then env.join env.homedir (jsDrop localPath 2)
  else if localPath = "~" then env.homedir
  else localPath

/-- `validateLocalDownloadPath` (lines 348-402). -/
def validateLocalDownloadPath (env : FsEnv) (localPath : String) :
    PathValidation :=
  let normalized := env.resolve (expandLocalTilde env localPath)
  let parentDir := env.dirname normalized
  if env.existsSync parentDir = false then
    ⟨false, normalized,
     some ("Local directory '" ++ parentDir ++ "' does not exist"),
     some ("Create it first with: mkdir -p \"" ++ parentDir ++ "\"")⟩
  else if env.writableSync parentDir = false then
    ⟨false, normalized,
     some ("Local directory '" ++ parentDir ++ "' is not writable"),
     some ("Check permissions with: ls -ld \"" ++ parentDir ++ "\"")⟩
  else ⟨true, normalized, none, none⟩

/-- `validateLocalUploadPath` (lines 420-482). -/
def validateLocalUploadPath (env : FsEnv) (localPath : String) :
    PathValidation :=
  let normalized := env.resolve (expandLocalTilde env localPath)
  if env.existsSync normalized = false then
    ⟨false, normalized,
     some ("Local file '" ++ normalized ++ "' does not exist"),
     some "Check the file path and ensure the file exists"⟩
  else if env.isFile normalized = false then
    ⟨false, normalized,
     some ("Path '" ++ normalized ++ "' is not a file"),
     some "Ensure you are specifying a file, not a directory"⟩
  else if env.readableSync normalized = false then
    ⟨false, normalized,
     some ("Local file '" ++ normalized ++ "' is not readable"),
     some ("Check permissions with: ls -l \"" ++ normalized ++ "\"")⟩
  else ⟨true, normalized, none, none⟩

/-! ## Tool handlers (server.tool registrations, src/index.ts lines 511-609)

Each handler runs `rateLimiter.checkLimit()` first, then its validation
step, and only then builds the SSH config and calls into the operation
that acquires a session from the pool.  The model records the pool
interactions that happen up to (and including) session acquisition; a
request that fails validation produces an empty interaction trace. -/

inductive PoolAction
  | acquire
deriving DecidableEq

inductive HandlerError
  | rateLimit (e : RateLimitError)
  | invalidCommand (e : CmdError)
  | localPath
deriving DecidableEq

/-- The `exec` tool handler (lines 517-537): rate limit, then
`sanitizeCommand`, then `execSshCommand` — whose first pool interaction is
`connectionPool.getConnection` (line 926), recorded as `acquire`. -/
def execToolHandler (rlCfg : RateLimitConfig) (sCfg : SanitizeConfig)
    (requests : List Int) (now : Int) (command : String) :
    List PoolAction × Except HandlerError String :=
  match (checkLimitRun rlCfg requests now).1 with
  | some e => ([], .error (.rateLimit e))
  | none =>
    match sanitizeCommand sCfg command with
    | .error e => ([], .error (.invalidCommand e))
    | .ok sanitizedCommand => ([.acquire], .ok sanitizedCommand)

/-- The `upload` tool handler (lines 547-561) composed with the start of
`uploadFile` (lines 624-641): rate limit, then `validateLocalUploadPath`,
then `connectionPool.getConnection`. -/
def uploadToolHandler (rlCfg : RateLimitConfig) (requests : List Int)
    (now : Int) (env : FsEnv) (localPath : String) :
    List PoolAction × Except HandlerError String :=
  match (checkLimitRun rlCfg requests now).1 with
  | some e => ([], .error (.rateLimit e))
  | none =>
    if (validateLocalUploadPath env localPath).valid then
      ([.acquire], .ok (validateLocalUploadPath env localPath).normalizedPath)
    else ([], .error .localPath)

/-- The `download` tool handler (lines 571-585) composed with the start of
`downloadFile` (lines 716-733): rate limit, then
`validateLocalDownloadPath`, then `connectionPool.getConnection`. -/
def downloadToolHandler (rlCfg : RateLimitConfig) (requests : List Int)
    (now : Int) (env : FsEnv) (localPath : String) :
    List PoolAction × Except HandlerError String :=
  match (checkLimitRun rlCfg requests now).1 with
  | some e => ([], .error (.rateLimit e))
  | none =>
    if (validateLocalDownloadPath env localPath).valid then
      ([.acquire], .ok (validateLocalDownloadPath env localPath).normalizedPath)
    else ([], .error .localPath)

/-! ## Command execution (execSshCommand, src/index.ts lines 918-1023)

After the session is acquired and `conn.exec(command, ...)` is dispatched,
the remaining behaviour is driven by callbacks on the single-threaded
event loop.  Each callback invocation is an event; a run is a
timestamped event list processed in order (no two callback bodies
overlap).  JS timer semantics are modelled by activity flags: a timer
whose `clearTimeout` ran, or which already fired, cannot fire again, and
each stream/callback event is consumed at most once. -/

inductive ExecOutcome
  | success (stdout : String)                -- resolve({content: [...stdout]})
  | execFailed (code : Int) (msg : String)   -- 'Command failed (exit code ...)'
  | sshExecError (msg : String)              -- 'SSH exec error: ...'
  | timeout                                  -- 'Command execution timed out ...'
deriving DecidableEq

/-- The exit-status mapping in the `stream.on('close')` handler
(lines 987-1012): non-zero exit code rejects with
`stderr || stdout || 'Command failed'`, exit code 0 resolves with the
accumulated stdout. -/
def closeOutcome (code : Int) (stdout stderr : String) : ExecOutcome :=
  if code ≠ 0 then
    .execFailed code
      (if stderr ≠ "" then stderr
       else if stdout ≠ "" then stdout
       else "Command failed")
  else .success stdout

inductive ExecEvent
  /-- the primary deadline timer (line 944) fires -/
  | timerFire
  /-- the `conn.exec(command, ...)` callback reports an error (line 969) -/
  | execErr (msg : String)
  /-- the command stream's `close` event (line 980) with exit code and the
  accumulated stdout/stderr -/
  | streamClose (code : Int) (stdout stderr : String)
  /-- the abort command's stream `close` event (line 955) -/
  | abortStreamClose
  /-- the abort `conn.exec` callback ran with no stream (line 959) -/
  | abortCbNoStream
  /-- the secondary 5-second abort timer (line 948) fires -/
  | abortTimerFire
deriving DecidableEq

structure ExecRunState where
  poolSt : PoolState
  conn : Nat                  -- the session acquired on line 926
  isResolved : Bool           -- the guard flag (line 941)
  timeoutActive : Bool        -- timeoutId scheduled and not yet cleared/fired
  cmdCallbackPending : Bool   -- conn.exec(command) callback/stream not consumed
  abortPending : Bool         -- abort exec issued, its callback not consumed
  abortTimerActive : Bool     -- abortTimeout scheduled and not yet cleared/fired
  outcomes : List ExecOutcome -- settlements of the promise, in order
  returns : List Nat          -- arguments of returnConnection calls, in order
deriving DecidableEq

/-- A `connectionPool.returnConnection(conn)` call made from inside
`execSshCommand`. -/
def retConn (cfg : PoolConfig) (st : ExecRunState) (now : Int) : ExecRunState :=
  { st with poolSt := returnConnection cfg st.poolSt st.conn now,
            returns := st.returns ++ [st.conn] }

/-- One callback invocation of `execSshCommand` (lines 940-1021). -/
def execStep (cfg : PoolConfig) (st : ExecRunState) (now : Int) :
    ExecEvent → ExecRunState
  | .timerFire =>
    -- setTimeout callback, lines 944-966
    if st.timeoutActive then
      if st.isResolved then { st with timeoutActive := false }
      else
        -- isResolved = true; schedule abortTimeout; conn.exec(abort...);
        -- reject(timeout)
        { st with timeoutActive := false, isResolved := true,
                  abortPending := true, abortTimerActive := true,
                  outcomes := st.outcomes ++ [ExecOutcome.timeout] }
    else st
  | .execErr msg =>
    -- conn.exec callback error branch, lines 969-977
    if st.cmdCallbackPending then
      if st.isResolved then { st with cmdCallbackPending := false }
      else
        retConn cfg
          { st with cmdCallbackPending := false, isResolved := true,
                    timeoutActive := false,
                    outcomes := st.outcomes ++ [ExecOutcome.sshExecError msg] }
          now
    else st
  | .streamClose code stdout stderr =>
    -- stream.on('close') handler, lines 980-1014
    if st.cmdCallbackPending then
      if st.isResolved then { st with cmdCallbackPending := false }
      else
        retConn cfg
          { st with cmdCallbackPending := false, isResolved := true,
                    timeoutActive := false,
                    outcomes := st.outcomes ++ [closeOutcome code stdout stderr] }
          now
    else st
  | .abortStreamClose =>
    -- abortStream.on('close') handler, lines 955-958:
    -- clearTimeout(abortTimeout); returnConnection(conn)
    if st.abortPending then
      retConn cfg { st with abortPending := false, abortTimerActive := false } now
    else st
  | .abortCbNoStream =>
    -- else branch, lines 959-962: clearTimeout(abortTimeout); returnConnection
    if st.abortPending then
      retConn cfg { st with abortPending := false, abortTimerActive := false } now
    else st
  | .abortTimerFire =>
    -- abortTimeout callback, lines 948-951: returnConnection(conn)
    if st.abortTimerActive then
      retConn cfg { st with abortTimerActive := false } now
    else st

/-- Process a list of timestamped events in order. -/
def execRun (cfg : PoolConfig) (st : ExecRunState) :
    List (Int × ExecEvent) → ExecRunState
  | [] => st
  | (t, e) :: es => execRun cfg (execStep cfg st t e) es

/-- The state of `execSshCommand` right after the session is acquired and
`conn.exec(command, ...)` plus the deadline timer are set up. -/
def execInit (poolSt : PoolState) (conn : Nat) : ExecRunState :=
  ⟨poolSt, conn, false, true, true, false, false, [], []⟩

/-- Which events settle the promise, and with what outcome. -/
def settleOf : ExecEvent → Option ExecOutcome
  | .timerFire => some .timeout
  | .execErr msg => some (.sshExecError msg)
  | .streamClose code stdout stderr => some (closeOutcome code stdout stderr)
  | .abortStreamClose => none
  | .abortCbNoStream => none
  | .abortTimerFire => none

/-- The settlement of the first settling event of a run, if any. -/
def firstSettle : List (Int × ExecEvent) → Option ExecOutcome
  | [] => none
  | (_, e) :: es =>
    match settleOf e with
    | some o => some o
    | none => firstSettle es

/-! ## Theorems: rate limiter (claims C4, C10) -/

lemma pruneWindow_replicate (w now : Int) (hw : 0 < w) (j : Nat) :
    pruneWindow w now (List.replicate j now) = List.replicate j now := by
  unfold pruneWindow
  apply List.filter_replicate_of_pos
  simp only [decide_eq_true_eq]
  omega

lemma checkLimitIter_replicate (cfg : RateLimitConfig)
    (henabled : cfg.enabled = true) (hw : 0 < cfg.windowMs) (now : Int) :
    ∀ (n j : Nat), j + n ≤ cfg.max →
      checkLimitIter cfg (List.replicate j now) now n
        = some (List.replicate (j + n) now) := by
  intro n
  induction n with
  | zero => intro j _; simp [checkLimitIter]
  | succ n ih =>
    intro j hj
    have hrun : checkLimitRun cfg (List.replicate j now) now
        = (none, List.replicate (j + 1) now) := by
      unfold checkLimitRun
      rw [pruneWindow_replicate cfg.windowMs now hw j]
      have hlt : ¬ cfg.max ≤ (List.replicate j now).length := by
        simp only [List.length_replicate]
        omega
      simp only [henabled, hlt, if_false, if_neg hlt, Bool.true_eq_false]
      simp [List.replicate_succ']
    have harith : j + 1 + n = j + (n + 1) := by omega
    simp only [checkLimitIter, hrun]
    rw [ih (j + 1) (by omega), harith]

/-- C4: with rate limiting enabled, `checkLimit` first prunes every
timestamp at or before `now - windowMs`, fails with `RateLimitExceeded`
(carrying `max` and `windowMs`) exactly when the pruned count is at least
`max`, and otherwise records `now`; when disabled it succeeds with no
bookkeeping.  Consequently, from a fresh window, `max` checks in rapid
succession all succeed, the `(max+1)`-th at the same instant fails, and a
check `windowMs` later succeeds again. -/
theorem checkLimit_claim (cfg : RateLimitConfig) (requests : List Int) (now : Int) :
    (cfg.enabled = false → checkLimitRun cfg requests now = (none, requests)) ∧
    (cfg.enabled = true →
      ((checkLimitRun cfg requests now).1 = some ⟨cfg.max, cfg.windowMs⟩ ↔
        cfg.max ≤ (pruneWindow cfg.windowMs now requests).length) ∧
      ((checkLimitRun cfg requests now).1 = none →
        (checkLimitRun cfg requests now).2
          = pruneWindow cfg.windowMs now requests ++ [now])) ∧
    (cfg.enabled = true → 0 < cfg.max → 0 < cfg.windowMs →
      checkLimitIter cfg [] now cfg.max = some (List.replicate cfg.max now) ∧
      (checkLimitRun cfg (List.replicate cfg.max now) now).1
        = some ⟨cfg.max, cfg.windowMs⟩ ∧
      (checkLimitRun cfg (List.replicate cfg.max now) (now + cfg.windowMs)).1
        = none) := by
  refine ⟨?_, ?_, ?_⟩
  · intro h
    simp [checkLimitRun, h]
  · intro h
    constructor
    · unfold checkLimitRun
      by_cases hm : cfg.max ≤ (pruneWindow cfg.windowMs now requests).length
      · simp [h, hm]
      · simp [h, hm]
    · intro hok
      unfold checkLimitRun at hok ⊢
      by_cases hm : cfg.max ≤ (pruneWindow cfg.windowMs now requests).length
      · simp [h, hm] at hok
      · simp [h, hm]
  · intro h hmax hw
    refine ⟨?_, ?_, ?_⟩
    · have := checkLimitIter_replicate cfg h hw now cfg.max 0 (by omega)
      simpa using this
    · have hfull : cfg.max ≤ (List.replicate cfg.max now).length := by simp
      simp [checkLimitRun, h, hfull,
        pruneWindow_replicate cfg.windowMs now hw cfg.max]
    · unfold checkLimitRun
      have hnil : pruneWindow cfg.windowMs (now + cfg.windowMs)
          (List.replicate cfg.max now) = [] := by
        unfold pruneWindow
        apply List.filter_replicate_of_neg
        simp only [decide_eq_true_eq]
        omega
      have hne : cfg.max ≠ 0 := by omega
      rw [hnil]
      simp [h, hne]

/-- Witness for C4 at the spec scenario `max = 3, windowMs = 5000`. -/
theorem checkLimit_claim_witness :
    checkLimitRun ⟨false, 3, 5000⟩ [1, 2] 7 = (none, [1, 2]) ∧
    ((checkLimitRun ⟨true, 1, 10⟩ [-100, 0] 5).1 = some ⟨1, 10⟩ ↔
      1 ≤ (pruneWindow 10 5 [-100, 0]).length) ∧
    checkLimitIter ⟨true, 3, 5000⟩ [] 0 3 = some (List.replicate 3 0) ∧
    (checkLimitRun ⟨true, 3, 5000⟩ (List.replicate 3 0) 0).1 = some ⟨3, 5000⟩ ∧
    (checkLimitRun ⟨true, 3, 5000⟩ (List.replicate 3 0) (0 + 5000)).1 = none := by
  have h1 := (checkLimit_claim ⟨false, 3, 5000⟩ [1, 2] 7).1 rfl
  have h2 := ((checkLimit_claim ⟨true, 1, 10⟩ [-100, 0] 5).2.1 rfl).1
  have h3 := (checkLimit_claim ⟨true, 3, 5000⟩ [] 0).2.2 rfl (by decide) (by decide)
  exact ⟨h1, h2, h3.1, h3.2.1, h3.2.2⟩

lemma pruneWindow_pruneWindow (w now now' : Int) (hle : now ≤ now')
    (l : List Int) :
    pruneWindow w now' (pruneWindow w now l) = pruneWindow w now' l := by
  unfold pruneWindow
  rw [List.filter_filter]
  apply List.filter_congr
  intro x _
  by_cases hx : now' - w < x
  · have : now - w < x := by omega
    simp [hx, this]
  · simp [hx]

/-- C10: a call to `checkLimit` that fails with `RateLimitExceeded`
records no timestamp (the post-call window is a sublist of the pre-call
one), and any later call sees exactly the outcome it would have seen had
the denied call never happened. -/
theorem checkLimit_denied_no_budget (cfg : RateLimitConfig)
    (requests : List Int) (now now' : Int) (e : RateLimitError)
    (hdeny : (checkLimitRun cfg requests now).1 = some e)
    (hle : now ≤ now') :
    (checkLimitRun cfg requests now).2.Sublist requests ∧
    checkLimitRun cfg ((checkLimitRun cfg requests now).2) now'
      = checkLimitRun cfg requests now' := by
  have henabled : cfg.enabled = true := by
    cases hb : cfg.enabled
    · simp [checkLimitRun, hb] at hdeny
    · rfl
  have hfull : cfg.max ≤ (pruneWindow cfg.windowMs now requests).length := by
    by_contra hm
    simp [checkLimitRun, henabled, hm] at hdeny
  have hpost : (checkLimitRun cfg requests now).2
      = pruneWindow cfg.windowMs now requests := by
    simp [checkLimitRun, henabled, hfull]
  constructor
  · rw [hpost]
    exact List.filter_sublist requests
  · rw [hpost]
    simp [checkLimitRun, henabled,
      pruneWindow_pruneWindow cfg.windowMs now now' hle requests]

/-- Witness for C10: a denied call (window full) leaves the later call's
outcome unchanged. -/
theorem checkLimit_denied_no_budget_witness :
    (checkLimitRun ⟨true, 1, 10⟩ [-100, 0] 5).2.Sublist [-100, 0] ∧
    checkLimitRun ⟨true, 1, 10⟩ ((checkLimitRun ⟨true, 1, 10⟩ [-100, 0] 5).2) 6
      = checkLimitRun ⟨true, 1, 10⟩ [-100, 0] 6 :=
  checkLimit_denied_no_budget ⟨true, 1, 10⟩ [-100, 0] 5 6 ⟨1, 10⟩ (by decide)
    (by decide)

/-! ## Theorems: connection pool (claims C5, C6) -/

lemma releaseMany_fill (cfg : PoolConfig) (henabled : cfg.enabled = true)
    (now : Int) :
    ∀ (cs : List Nat) (st : PoolState), st.pool.length ≤ cfg.maxSize →
      (releaseMany cfg st now cs).pool
        = st.pool ++ (cs.take (cfg.maxSize - st.pool.length)).map
            (fun c => (⟨c, now⟩ : PooledConnection)) ∧
      (releaseMany cfg st now cs).closed
        = st.closed ++ cs.drop (cfg.maxSize - st.pool.length) := by
  intro cs
  induction cs with
  | nil => intro st _; simp [releaseMany]
  | cons c cs ih =>
    intro st h
    by_cases hfull : cfg.maxSize ≤ st.pool.length
    · have hz : cfg.maxSize - st.pool.length = 0 := by omega
      have hrc : returnConnection cfg st c now = ⟨st.pool, st.closed ++ [c]⟩ := by
        simp [returnConnection, henabled, hfull]
      obtain ⟨h1, h2⟩ := ih ⟨st.pool, st.closed ++ [c]⟩ (by simpa using h)
      constructor
      · simp only [releaseMany, hrc]
        rw [h1]
        simp [hz]
      · simp only [releaseMany, hrc]
        rw [h2]
        simp [hz]
    · have hnotfull : ¬ cfg.maxSize ≤ st.pool.length := hfull
      have hrc : returnConnection cfg st c now
          = ⟨st.pool ++ [⟨c, now⟩], st.closed⟩ := by
        simp [returnConnection, henabled, hnotfull]
      obtain ⟨h1, h2⟩ :=
        ih ⟨st.pool ++ [⟨c, now⟩], st.closed⟩ (by simp; omega)
      have hsub : cfg.maxSize - st.pool.length
          = (cfg.maxSize - (st.pool.length + 1)) + 1 := by omega
      constructor
      · simp only [releaseMany, hrc]
        rw [h1]
        rw [hsub]
        simp [List.take_succ_cons, List.append_assoc]
      · simp only [releaseMany, hrc]
        rw [h2]
        rw [hsub]
        simp [List.drop_succ_cons]

/-- C5: releasing a session closes it when pooling is disabled, closes it
(never queues it) when the pool is already at `maxSize`, and otherwise
appends it with a fresh last-used timestamp; the pool never exceeds
`maxSize`, and releasing `N + 1` sessions into an empty pool with
`maxSize = N` leaves exactly `N` pooled entries and one closed session. -/
theorem returnConnection_claim (cfg : PoolConfig) (st : PoolState)
    (conn : Nat) (now : Int) :
    (cfg.enabled = false →
      returnConnection cfg st conn now = ⟨st.pool, st.closed ++ [conn]⟩) ∧
    (cfg.enabled = true → cfg.maxSize ≤ st.pool.length →
      returnConnection cfg st conn now = ⟨st.pool, st.closed ++ [conn]⟩) ∧
    (cfg.enabled = true → st.pool.length < cfg.maxSize →
      returnConnection cfg st conn now
        = ⟨st.pool ++ [⟨conn, now⟩], st.closed⟩) ∧
    (returnConnection cfg st conn now).pool.length
      ≤ max st.pool.length cfg.maxSize ∧
    (cfg.enabled = true → ∀ cs : List Nat, cs.length = cfg.maxSize + 1 →
      (releaseMany cfg ⟨[], []⟩ now cs).pool.length = cfg.maxSize ∧
      (releaseMany cfg ⟨[], []⟩ now cs).closed.length = 1) := by
  refine ⟨?_, ?_, ?_, ?_, ?_⟩
  · intro h
    simp [returnConnection, h]
  · intro h hfull
    simp [returnConnection, h, hfull]
  · intro h hlt
    have hnot : ¬ cfg.maxSize ≤ st.pool.length := by omega
    simp [returnConnection, h, hnot]
  · by_cases h1 : cfg.enabled = false
    · simp [returnConnection, h1, Nat.le_max_left]
    · by_cases h2 : cfg.maxSize ≤ st.pool.length
      · simp [returnConnection, h1, h2, Nat.le_max_left]
      · have hlt : st.pool.length < cfg.maxSize := by omega
        simp [returnConnection, h1, h2]
        omega
  · intro h cs hcs
    obtain ⟨h1, h2⟩ := releaseMany_fill cfg h now cs ⟨[], []⟩ (by simp)
    constructor
    · rw [h1]
      simp [List.length_take, hcs]
    · rw [h2]
      simp [List.length_drop, hcs]

/-- Witness for C5: pool of capacity 2, three sessions released. -/
theorem returnConnection_claim_witness :
    returnConnection ⟨false, 2, 100⟩ ⟨[], []⟩ 5 9 = ⟨[], [5]⟩ ∧
    returnConnection ⟨true, 0, 100⟩ ⟨[], []⟩ 5 9 = ⟨[], [5]⟩ ∧
    returnConnection ⟨true, 2, 100⟩ ⟨[], []⟩ 5 9 = ⟨[⟨5, 9⟩], []⟩ ∧
    (releaseMany ⟨true, 2, 100⟩ ⟨[], []⟩ 9 [10, 11, 12]).pool.length = 2 ∧
    (releaseMany ⟨true, 2, 100⟩ ⟨[], []⟩ 9 [10, 11, 12]).closed.length = 1 := by
  have h1 := (returnConnection_claim ⟨false, 2, 100⟩ ⟨[], []⟩ 5 9).1 rfl
  have h2 := (returnConnection_claim ⟨true, 0, 100⟩ ⟨[], []⟩ 5 9).2.1 rfl
    (by decide)
  have h3 := (returnConnection_claim ⟨true, 2, 100⟩ ⟨[], []⟩ 5 9).2.2.1 rfl
    (by decide)
  have h5 := (returnConnection_claim ⟨true, 2, 100⟩ ⟨[], []⟩ 5 9).2.2.2.2 rfl
    [10, 11, 12] (by decide)
  exact ⟨h1, h2, h3, h5.1, h5.2⟩

/-- C6: acquiring with pooling disabled always creates a fresh session;
with pooling enabled, entries idle strictly longer than `ttlMs` are closed
and dropped first and fresh-enough entries are kept, then the most
recently pushed remaining entry is popped and returned without creating a
new connection, and a fresh session is created only when the pruned pool
is empty. -/
theorem getConnection_claim (cfg : PoolConfig) (st : PoolState) (now : Int)
    (freshId : Nat) :
    (cfg.enabled = false → getConnection cfg st now freshId = ⟨freshId, true, st⟩) ∧
    (cfg.enabled = true → ∀ p ∈ st.pool, cfg.ttlMs < now - p.lastUsed →
      p ∉ (cleanupExpired cfg st now).pool ∧
      p.conn ∈ (cleanupExpired cfg st now).closed) ∧
    (cfg.enabled = true → ∀ p ∈ st.pool, now - p.lastUsed ≤ cfg.ttlMs →
      p ∈ (cleanupExpired cfg st now).pool) ∧
    (cfg.enabled = true → ∀ rest last,
      (cleanupExpired cfg st now).pool = rest ++ [last] →
      getConnection cfg st now freshId
        = ⟨last.conn, false, ⟨rest, (cleanupExpired cfg st now).closed⟩⟩) ∧
    (cfg.enabled = true → (cleanupExpired cfg st now).pool = [] →
      getConnection cfg st now freshId = ⟨freshId, true, cleanupExpired cfg st now⟩) := by
  refine ⟨?_, ?_, ?_, ?_, ?_⟩
  · intro h
    simp [getConnection, h]
  · intro h p hp hexp
    constructor
    · intro hmem
      simp only [cleanupExpired, List.mem_filter, decide_eq_true_eq] at hmem
      omega
    · simp only [cleanupExpired, List.mem_append, List.mem_map, List.mem_filter,
        decide_eq_true_eq]
      exact Or.inr ⟨p, ⟨hp, hexp⟩, rfl⟩
  · intro h p hp hkeep
    simp only [cleanupExpired, List.mem_filter, decide_eq_true_eq]
    exact ⟨hp, hkeep⟩
  · intro h rest last hsplit
    simp [getConnection, h, hsplit]
  · intro h hnil
    simp [getConnection, h, hnil]

/-- Witness for C6: a stale entry is evicted, the fresh one is reused
LIFO, and an all-stale pool forces a fresh connection. -/
theorem getConnection_claim_witness :
    getConnection ⟨false, 3, 100⟩ ⟨[⟨1, 0⟩], []⟩ 120 99
      = ⟨99, true, ⟨[⟨1, 0⟩], []⟩⟩ ∧
    ((⟨1, 0⟩ : PooledConnection) ∉
        (cleanupExpired ⟨true, 3, 100⟩ ⟨[⟨1, 0⟩, ⟨2, 50⟩], []⟩ 120).pool ∧
      1 ∈ (cleanupExpired ⟨true, 3, 100⟩ ⟨[⟨1, 0⟩, ⟨2, 50⟩], []⟩ 120).closed) ∧
    (⟨2, 50⟩ : PooledConnection) ∈
      (cleanupExpired ⟨true, 3, 100⟩ ⟨[⟨1, 0⟩, ⟨2, 50⟩], []⟩ 120).pool ∧
    getConnection ⟨true, 3, 100⟩ ⟨[⟨1, 0⟩, ⟨2, 50⟩], []⟩ 120 99
      = ⟨2, false, ⟨[], [1]⟩⟩ ∧
    getConnection ⟨true, 3, 100⟩ ⟨[⟨1, 0⟩], []⟩ 120 99
      = ⟨99, true, ⟨[], [1]⟩⟩ := by
  have h1 := (getConnection_claim ⟨false, 3, 100⟩ ⟨[⟨1, 0⟩], []⟩ 120 99).1 rfl
  have h2 := (getConnection_claim ⟨true, 3, 100⟩ ⟨[⟨1, 0⟩, ⟨2, 50⟩], []⟩ 120 99).2.1
    rfl ⟨1, 0⟩ (by decide) (by decide)
  have h3 := (getConnection_claim ⟨true, 3, 100⟩ ⟨[⟨1, 0⟩, ⟨2, 50⟩], []⟩ 120 99).2.2.1
    rfl ⟨2, 50⟩ (by decide) (by decide)
  have h4 := (getConnection_claim ⟨true, 3, 100⟩ ⟨[⟨1, 0⟩, ⟨2, 50⟩], []⟩ 120 99).2.2.2.1
    rfl [] ⟨2, 50⟩ (by decide)
  have h5 := (getConnection_claim ⟨true, 3, 100⟩ ⟨[⟨1, 0⟩], []⟩ 120 99).2.2.2.2
    rfl (by decide)
  exact ⟨h1, h2, h3, by simpa using h4, by simpa using h5⟩

/-! ## Theorems: command execution (claims C1, C2, C3, C7) -/

lemma execStep_resolved (cfg : PoolConfig) (st : ExecRunState) (now : Int)
    (e : ExecEvent) (h : st.isResolved = true) :
    (execStep cfg st now e).outcomes = st.outcomes ∧
    (execStep cfg st now e).isResolved = true := by
  cases e <;>
    simp only [execStep, retConn, h] <;>
    split <;> simp [h]

lemma execRun_resolved (cfg : PoolConfig) (es : List (Int × ExecEvent)) :
    ∀ (st : ExecRunState), st.isResolved = true →
      (execRun cfg st es).outcomes = st.outcomes ∧
      (execRun cfg st es).isResolved = true := by
  induction es with
  | nil => intro st h; exact ⟨rfl, h⟩
  | cons te es ih =>
    obtain ⟨t, e⟩ := te
    intro st h
    have h1 := execStep_resolved cfg st t e h
    have h2 := ih (execStep cfg st t e) h1.2
    exact ⟨h2.1.trans h1.1, h2.2⟩

lemma execRun_firstSettle (cfg : PoolConfig) (es : List (Int × ExecEvent)) :
    ∀ (st : ExecRunState), st.isResolved = false → st.timeoutActive = true →
      st.cmdCallbackPending = true → st.abortPending = false →
      st.abortTimerActive = false → st.outcomes = [] →
      (execRun cfg st es).outcomes = (firstSettle es).toList := by
  induction es with
  | nil =>
    intro st _ _ _ _ _ h6
    simpa [execRun, firstSettle] using h6
  | cons te es ih =>
    obtain ⟨t, e⟩ := te
    intro st h1 h2 h3 h4 h5 h6
    cases e with
    | timerFire =>
      have hstep : execStep cfg st t .timerFire
          = { st with timeoutActive := false, isResolved := true,
                      abortPending := true, abortTimerActive := true,
                      outcomes := st.outcomes ++ [ExecOutcome.timeout] } := by
        simp [execStep, h1, h2]
      rw [execRun, hstep]
      obtain ⟨ho, -⟩ := execRun_resolved cfg es
        { st with timeoutActive := false, isResolved := true,
                  abortPending := true, abortTimerActive := true,
                  outcomes := st.outcomes ++ [ExecOutcome.timeout] } rfl
      rw [ho]
      simp [firstSettle, settleOf, h6]
    | execErr msg =>
      have hstep : execStep cfg st t (.execErr msg)
          = retConn cfg
              { st with cmdCallbackPending := false, isResolved := true,
                        timeoutActive := false,
                        outcomes := st.outcomes ++ [ExecOutcome.sshExecError msg] }
              t := by
        simp [execStep, h1, h3]
      rw [execRun, hstep]
      obtain ⟨ho, -⟩ := execRun_resolved cfg es
        (retConn cfg
          { st with cmdCallbackPending := false, isResolved := true,
                    timeoutActive := false,
                    outcomes := st.outcomes ++ [ExecOutcome.sshExecError msg] }
          t) rfl
      rw [ho]
      simp [retConn, firstSettle, settleOf, h6]
    | streamClose code stdout stderr =>
      have hstep : execStep cfg st t (.streamClose code stdout stderr)
          = retConn cfg
              { st with cmdCallbackPending := false, isResolved := true,
                        timeoutActive := false,
                        outcomes := st.outcomes ++ [closeOutcome code stdout stderr] }
              t := by
        simp [execStep, h1, h3]
      rw [execRun, hstep]
      obtain ⟨ho, -⟩ := execRun_resolved cfg es
        (retConn cfg
          { st with cmdCallbackPending := false, isResolved := true,
                    timeoutActive := false,
                    outcomes := st.outcomes ++ [closeOutcome code stdout stderr] }
          t) rfl
      rw [ho]
      simp [retConn, firstSettle, settleOf, h6]
    | abortStreamClose =>
      have hstep : execStep cfg st t .abortStreamClose = st := by
        simp [execStep, h4]
      rw [execRun, hstep]
      rw [ih st h1 h2 h3 h4 h5 h6]
      simp [firstSettle, settleOf]
    | abortCbNoStream =>
      have hstep : execStep cfg st t .abortCbNoStream = st := by
        simp [execStep, h4]
      rw [execRun, hstep]
      rw [ih st h1 h2 h3 h4 h5 h6]
      simp [firstSettle, settleOf]
    | abortTimerFire =>
      have hstep : execStep cfg st t .abortTimerFire = st := by
        simp [execStep, h5]
      rw [execRun, hstep]
      rw [ih st h1 h2 h3 h4 h5 h6]
      simp [firstSettle, settleOf]

/-- C2: for every run of `execSshCommand`, the promise settles exactly
with the outcome of the first settling event (deadline fire, exec error,
or stream close) — so the deadline timer and the stream-close handler can
never both report, in either race order, and at most one terminal outcome
is ever produced. -/
theorem exec_exactly_one_settlement (cfg : PoolConfig) (poolSt : PoolState)
    (conn : Nat) (es : List (Int × ExecEvent)) :
    (execRun cfg (execInit poolSt conn) es).outcomes = (firstSettle es).toList :=
  execRun_firstSettle cfg es (execInit poolSt conn) rfl rfl rfl rfl rfl rfl

/-- C7: when the command stream closes before the deadline, exit code 0
resolves as success carrying the accumulated stdout (whatever stderr
holds), and a non-zero exit code fails, reporting the exit code and
carrying stderr if non-empty, else stdout, else a generic message. -/
theorem close_outcome_mapping (cfg : PoolConfig) (poolSt : PoolState)
    (conn : Nat) (code : Int) (stdout stderr : String) (ts : Int)
    (es : List (Int × ExecEvent)) :
    (code = 0 → closeOutcome code stdout stderr = .success stdout) ∧
    (code ≠ 0 → closeOutcome code stdout stderr
      = .execFailed code
          (if stderr ≠ "" then stderr
           else if stdout ≠ "" then stdout
           else "Command failed")) ∧
    (execRun cfg (execInit poolSt conn)
        ((ts, .streamClose code stdout stderr) :: es)).outcomes
      = [closeOutcome code stdout stderr] := by
  refine ⟨?_, ?_, ?_⟩
  · intro h
    simp [closeOutcome, h]
  · intro h
    simp [closeOutcome, h]
  · rw [execRun_firstSettle cfg ((ts, .streamClose code stdout stderr) :: es)
      (execInit poolSt conn) rfl rfl rfl rfl rfl rfl]
    simp [firstSettle, settleOf]

/-- Witness for C7: exit 0 with noisy stderr is success with stdout; exit
2 with empty streams is the generic failure message. -/
theorem close_outcome_mapping_witness :
    closeOutcome 0 "out" "warning" = .success "out" ∧
    closeOutcome 2 "" "" = .execFailed 2 "Command failed" ∧
    closeOutcome 1 "so" "se" = .execFailed 1 "se" := by
  have h0 := close_outcome_mapping ⟨true, 3, 300000⟩ ⟨[], []⟩ 7 0 "out" "warning"
    50 []
  have h2 := close_outcome_mapping ⟨true, 3, 300000⟩ ⟨[], []⟩ 7 2 "" "" 50 []
  have h1 := close_outcome_mapping ⟨true, 3, 300000⟩ ⟨[], []⟩ 7 1 "so" "se" 50 []
  exact ⟨h0.1 rfl, by simpa using h2.2.1 (by decide), by simpa using h1.2.1 (by decide)⟩

/-- C1 (code bug): on the timeout path the caller-visible result is the
timeout failure, but when the abort teardown completes (here: the
termination stream closes) the session is *returned to the pool* by
`returnConnection`, not discarded — with the pool enabled and below
capacity the connection ends up pooled and is never closed, contradicting
the claimed discard policy (and the source's own comment, which says the
connection is force-closed). -/
theorem timeout_session_returned_to_pool :
    (execRun ⟨true, 3, 300000⟩ (execInit ⟨[], []⟩ 7)
        [(100, .timerFire), (2100, .abortStreamClose)]).outcomes
      = [ExecOutcome.timeout] ∧
    (execRun ⟨true, 3, 300000⟩ (execInit ⟨[], []⟩ 7)
        [(100, .timerFire), (2100, .abortStreamClose)]).poolSt.pool
      = [⟨7, 2100⟩] ∧
    (execRun ⟨true, 3, 300000⟩ (execInit ⟨[], []⟩ 7)
        [(100, .timerFire), (2100, .abortStreamClose)]).poolSt.closed
      = [] := by
  refine ⟨?_, ?_, ?_⟩ <;> rfl

/-- C3 (code bug): when the secondary abort timer fires before the abort
stream closes, `returnConnection` runs twice for the same connection —
the close handler does not check that the timer already fired — so the
session occupies two pool entries and two subsequent acquires hand the
same connection to two concurrent operations. -/
theorem abort_double_release :
    (execRun ⟨true, 3, 300000⟩ (execInit ⟨[], []⟩ 7)
        [(100, .timerFire), (5100, .abortTimerFire), (6000, .abortStreamClose)]).returns
      = [7, 7] ∧
    (execRun ⟨true, 3, 300000⟩ (execInit ⟨[], []⟩ 7)
        [(100, .timerFire), (5100, .abortTimerFire), (6000, .abortStreamClose)]).poolSt.pool
      = [⟨7, 5100⟩, ⟨7, 6000⟩] ∧
    (getConnection ⟨true, 3, 300000⟩
        (execRun ⟨true, 3, 300000⟩ (execInit ⟨[], []⟩ 7)
          [(100, .timerFire), (5100, .abortTimerFire), (6000, .abortStreamClose)]).poolSt
        6001 99).conn = 7 ∧
    (getConnection ⟨true, 3, 300000⟩
        (getConnection ⟨true, 3, 300000⟩
          (execRun ⟨true, 3, 300000⟩ (execInit ⟨[], []⟩ 7)
            [(100, .timerFire), (5100, .abortTimerFire), (6000, .abortStreamClose)]).poolSt
          6001 99).state
        6002 98).conn = 7 ∧
    (getConnection ⟨true, 3, 300000⟩
        (getConnection ⟨true, 3, 300000⟩
          (execRun ⟨true, 3, 300000⟩ (execInit ⟨[], []⟩ 7)
            [(100, .timerFire), (5100, .abortTimerFire), (6000, .abortStreamClose)]).poolSt
          6001 99).state
        6002 98).createdNew = false := by
  refine ⟨?_, ?_, ?_, ?_, ?_⟩ <;> rfl

/-! ## Theorems: fail-fast validation (claim C8) -/

/-- C8: for each of the `exec`, `upload` and `download` tool handlers, a
rate-limit denial, a command-sanitization failure, or a local-path
validation failure makes the request fail with an empty pool-interaction
trace — no session is created or acquired on these paths. -/
theorem validation_fails_before_acquire (rlCfg : RateLimitConfig)
    (sCfg : SanitizeConfig) (env : FsEnv) (requests : List Int) (now : Int)
    (command localPath : String) :
    (∀ e, (checkLimitRun rlCfg requests now).1 = some e →
      execToolHandler rlCfg sCfg requests now command
        = ([], .error (.rateLimit e)) ∧
      uploadToolHandler rlCfg requests now env localPath
        = ([], .error (.rateLimit e)) ∧
      downloadToolHandler rlCfg requests now env localPath
        = ([], .error (.rateLimit e))) ∧
    (∀ ce, (checkLimitRun rlCfg requests now).1 = none →
      sanitizeCommand sCfg command = .error ce →
      execToolHandler rlCfg sCfg requests now command
        = ([], .error (.invalidCommand ce))) ∧
    ((checkLimitRun rlCfg requests now).1 = none →
      (validateLocalUploadPath env localPath).valid = false →
      uploadToolHandler rlCfg requests now env localPath
        = ([], .error .localPath)) ∧
    ((checkLimitRun rlCfg requests now).1 = none →
      (validateLocalDownloadPath env localPath).valid = false →
      downloadToolHandler rlCfg requests now env localPath
        = ([], .error .localPath)) := by
  refine ⟨?_, ?_, ?_, ?_⟩
  · intro e he
    exact ⟨by simp [execToolHandler, he],
           by simp [uploadToolHandler, he],
           by simp [downloadToolHandler, he]⟩
  · intro ce hrl hsan
    simp [execToolHandler, hrl, hsan]
  · intro hrl hv
    simp [uploadToolHandler, hrl, hv]
  · intro hrl hv
    simp [downloadToolHandler, hrl, hv]

/-- A filesystem oracle on which every `fs` probe fails: no file exists,
nothing is a file, nothing is readable or writable. -/
def envAllFail : FsEnv :=
  ⟨"/home/u", fun a b => a ++ "/" ++ b, fun p => p, fun _ => "/tmp",
   fun _ => false, fun _ => false, fun _ => false, fun _ => false⟩

/-- Witness for C8: a denied admission, an empty command, and missing
local files all fail with no pool interaction. -/
theorem validation_fails_before_acquire_witness :
    execToolHandler ⟨true, 0, 60000⟩ ⟨false, some 1000⟩ [] 0 "ls"
      = ([], .error (.rateLimit ⟨0, 60000⟩)) ∧
    uploadToolHandler ⟨true, 0, 60000⟩ [] 0 envAllFail "./f"
      = ([], .error (.rateLimit ⟨0, 60000⟩)) ∧
    execToolHandler ⟨true, 10, 60000⟩ ⟨false, some 1000⟩ [] 0 "   "
      = ([], .error (.invalidCommand .empty)) ∧
    uploadToolHandler ⟨true, 10, 60000⟩ [] 0 envAllFail "./f"
      = ([], .error .localPath) ∧
    downloadToolHandler ⟨true, 10, 60000⟩ [] 0 envAllFail "./f"
      = ([], .error .localPath) := by
  have hd := validation_fails_before_acquire ⟨true, 0, 60000⟩ ⟨false, some 1000⟩
    envAllFail [] 0 "ls" "./f"
  have ha := validation_fails_before_acquire ⟨true, 10, 60000⟩ ⟨false, some 1000⟩
    envAllFail [] 0 "   " "./f"
  refine ⟨(hd.1 ⟨0, 60000⟩ rfl).1, (hd.1 ⟨0, 60000⟩ rfl).2.1,
          ha.2.1 .empty rfl rfl, ha.2.2.1 rfl rfl, ha.2.2.2 rfl rfl⟩

/-! ## Theorems: remote path expansion (claim C9) -/

/-- C9: `expandRemotePath` returns any path that does not begin with `~`
unchanged, and when the remote `realpath` call fails it resolves with the
original input path — expansion failure is never surfaced as an error
(the success case is also characterized). -/
theorem expandRemotePath_claim (realpath : String → Except String String)
    (p : String) :
    (strStartsWith p "~" = false → expandRemotePath realpath p = p) ∧
    (∀ e, realpath p = .error e → expandRemotePath realpath p = p) ∧
    (∀ r, strStartsWith p "~" = true → realpath p = .ok r →
      expandRemotePath realpath p = r) := by
  have hpr : (if p = "~" then "~" else p) = p := by
    by_cases hp : p = "~"
    · simp [hp]
    · simp [hp]
  refine ⟨?_, ?_, ?_⟩
  · intro h
    simp [expandRemotePath, h]
  · intro e he
    cases hb : strStartsWith p "~"
    · simp [expandRemotePath, hb]
    · simp [expandRemotePath, hb, hpr, he]
  · intro r h hr
    simp [expandRemotePath, h, hpr, hr]

/-- Witness for C9: an absolute path is untouched, a failed expansion
falls back to the input, a successful one returns the resolved path. -/
theorem expandRemotePath_claim_witness :
    expandRemotePath (fun _ => .error "Permission denied") "/var/log"
      = "/var/log" ∧
    expandRemotePath (fun _ => .error "Permission denied") "~/Desktop/f.txt"
      = "~/Desktop/f.txt" ∧
    expandRemotePath (fun _ => .ok "/home/u/Desktop/f.txt") "~/Desktop/f.txt"
      = "/home/u/Desktop/f.txt" := by
  have h1 := expandRemotePath_claim (fun _ => .error "Permission denied") "/var/log"
  have h2 := expandRemotePath_claim (fun _ => .error "Permission denied")
    "~/Desktop/f.txt"
  have h3 := expandRemotePath_claim (fun _ => .ok "/home/u/Desktop/f.txt")
    "~/Desktop/f.txt"
  exact ⟨h1.1 (by decide), h2.2.1 "Permission denied" rfl,
         h3.2.2 "/home/u/Desktop/f.txt" (by decide) rfl⟩

end SshMcp
